import Mathlib

/-!
Verification development for the SLT website content-consistency analyzer
(`Discrepancy.py`).  The Python source is shallowly embedded: strings are
`String`/`List Char`, Python floats are modelled as `ℚ`, Python dicts of
page data become explicit structures and lists, and code that can raise a
`ZeroDivisionError` is modelled with `Except Unit`.
-/

namespace SLT

/-! ## Character classes (ContentConsistencyAnalyzer.detect_language, lines 35-60) -/

/-- Characters of the Sinhala Unicode block U+0D80 - U+0DFF
(`'඀' <= char <= '෿'` in the source). -/
def isSinhalaChar (c : Char) : Bool :=
  decide (0x0D80 ≤ c.toNat ∧ c.toNat ≤ 0x0DFF)

/-- ASCII alphabetic characters (`char.isalpha() and ord(char) < 128` in the
source, which for code points below 128 is exactly A-Z and a-z). -/
def isAsciiAlpha (c : Char) : Bool :=
  decide ((65 ≤ c.toNat ∧ c.toNat ≤ 90) ∨ (97 ≤ c.toNat ∧ c.toNat ≤ 122))

/-- ASCII whitespace, modelling the characters Python's `str.strip()`
removes from the texts handled here. -/
def pyIsSpace (c : Char) : Bool :=
  decide (c = ' ' ∨ c = '\t' ∨ c = '\n' ∨ c = '\r' ∨ c.toNat = 0x0b ∨ c.toNat = 0x0c)

/-- Number of Sinhala-block characters of a text
(`sum(1 for char in text if '඀' <= char <= '෿')`). -/
def sinhalaCount (text : String) : ℕ := text.data.countP isSinhalaChar

/-- Number of ASCII letters of a text
(`sum(1 for char in text if char.isalpha() and ord(char) < 128)`). -/
def asciiAlphaCount (text : String) : ℕ := text.data.countP isAsciiAlpha

/-- `ContentConsistencyAnalyzer.detect_language` (lines 35-60): classify a
text span as empty / no_text / sinhala / english / mixed / other from the
Sinhala-vs-ASCII letter counts.  `not text or not text.strip()` is modelled
as "every character is whitespace" (which is also true of the empty text). -/
def detectLanguage (text : String) : String :=
  if text.data.all pyIsSpace then "empty"
  else
    let s := sinhalaCount text
    let e := asciiAlphaCount text
    let t := s + e
    if t = 0 then "no_text"
    else if (7 : ℚ)/10 < (s : ℚ)/(t : ℚ) then "sinhala"
    else if (7 : ℚ)/10 < (e : ℚ)/(t : ℚ) then "english"
    else if (1 : ℚ)/10 < (s : ℚ)/(t : ℚ) ∧ (1 : ℚ)/10 < (e : ℚ)/(t : ℚ) then "mixed"
    else "other"

/-- Division-free restatement of the classifier's decision on the two
character counts: the ℚ comparisons of the source multiplied out. -/
def classifyCounts (s e : ℕ) : String :=
  if s + e = 0 then "no_text"
  else if 7 * (s + e) < 10 * s then "sinhala"
  else if 7 * (s + e) < 10 * e then "english"
  else if s + e < 10 * s ∧ s + e < 10 * e then "mixed"
  else "other"

/-- A threshold comparison `c/10 < s/t` over ℚ is the integer comparison
`c*t < 10*s` whenever `0 < t`. -/
lemma tenth_lt_div_iff (c s t : ℕ) (ht : 0 < t) :
    ((c : ℚ)/10 < (s : ℚ)/(t : ℚ)) ↔ c * t < 10 * s := by
  rw [div_lt_div_iff₀ (by norm_num) (by exact_mod_cast ht)]
  constructor
  · intro h
    have : ((c * t : ℕ) : ℚ) < ((10 * s : ℕ) : ℚ) := by push_cast; linarith
    exact_mod_cast this
  · intro h
    have : ((c * t : ℕ) : ℚ) < ((10 * s : ℕ) : ℚ) := by exact_mod_cast h
    push_cast at this; linarith

/-! ## Secondary whole-page classifier (DiscrepancyAnalyzer.detect_language, lines 1013-1034) -/

/-- `DiscrepancyAnalyzer.detect_language` (lines 1013-1034), the secondary
variant: character shares are taken over all non-space characters
(`len(text.replace(' ', ''))`), and the thresholds are 0.1 / 0.5. -/
def detectLanguagePage (text : String) : String :=
  if text = "" then "unknown"
  else
    let s := sinhalaCount text
    let e := asciiAlphaCount text
    let total := (text.data.filter (fun c => c ≠ ' ')).length
    if total = 0 then "unknown"
    else if (1 : ℚ)/10 < (s : ℚ)/(total : ℚ) then
      (if (e : ℚ)/(total : ℚ) < (s : ℚ)/(total : ℚ) then "sinhala" else "mixed")
    else if (1 : ℚ)/2 < (e : ℚ)/(total : ℚ) then "english"
    else "mixed"

/-- Language bucketing of `analyze_translation_consistency` (lines 383-409):
each page (url, combined text) is routed into the english / sinhala / mixed
bucket according to `self.detect_language` on its full text; pages with any
other verdict are dropped. -/
def partitionByLanguage (pages : List (String × String)) :
    List (String × String) × List (String × String) × List (String × String) :=
  pages.foldl
    (fun acc p =>
      let lang := detectLanguage p.2
      if lang = "english" then (acc.1 ++ [p], acc.2.1, acc.2.2)
      else if lang = "sinhala" then (acc.1, acc.2.1 ++ [p], acc.2.2)
      else if lang = "mixed" then (acc.1, acc.2.1, acc.2.2 ++ [p])
      else acc)
    ([], [], [])

lemma partitionByLanguage_go (pages : List (String × String))
    (acc : List (String × String) × List (String × String) × List (String × String)) :
    pages.foldl
      (fun acc p =>
        let lang := detectLanguage p.2
        if lang = "english" then (acc.1 ++ [p], acc.2.1, acc.2.2)
        else if lang = "sinhala" then (acc.1, acc.2.1 ++ [p], acc.2.2)
        else if lang = "mixed" then (acc.1, acc.2.1, acc.2.2 ++ [p])
        else acc)
      acc
    = (acc.1 ++ pages.filter (fun p => detectLanguage p.2 == "english"),
       acc.2.1 ++ pages.filter (fun p => detectLanguage p.2 == "sinhala"),
       acc.2.2 ++ pages.filter (fun p => detectLanguage p.2 == "mixed")) := by
  induction pages generalizing acc with
  | nil => simp
  | cons p ps ih =>
    by_cases h1 : detectLanguage p.2 = "english"
    · simp [List.filter_cons, h1, ih]
    · by_cases h2 : detectLanguage p.2 = "sinhala"
      · simp [List.filter_cons, h1, h2, ih]
      · by_cases h3 : detectLanguage p.2 = "mixed"
        · simp [List.filter_cons, h1, h2, h3, ih]
        · simp [List.filter_cons, h1, h2, h3, ih]

/-- The short-context classifier agrees with its division-free restatement:
blank input is `empty`, everything else is decided by the two letter counts. -/
lemma detectLanguage_characterization (text : String) :
    detectLanguage text =
      if text.data.all pyIsSpace then "empty"
      else classifyCounts (sinhalaCount text) (asciiAlphaCount text) := by
  by_cases hb : text.data.all pyIsSpace
  · simp [detectLanguage, hb]
  · simp only [detectLanguage, hb, Bool.false_eq_true, if_false]
    set s := sinhalaCount text with hs
    set e := asciiAlphaCount text with he
    by_cases ht : s + e = 0
    · simp [classifyCounts, ht]
    · have htpos : 0 < s + e := Nat.pos_of_ne_zero ht
      have h7s := tenth_lt_div_iff 7 s (s + e) htpos
      have h7e := tenth_lt_div_iff 7 e (s + e) htpos
      have h1s := tenth_lt_div_iff 1 s (s + e) htpos
      have h1e := tenth_lt_div_iff 1 e (s + e) htpos
      simp only [Nat.cast_ofNat] at h7s h7e
      simp only [Nat.cast_one] at h1s h1e
      simp only [classifyCounts, ht, if_false, h7s, h7e, h1s, h1e, one_mul]

/-- The language bucketing keeps page order and routes each page by the
primary classifier's verdict on its combined text. -/
lemma partitionByLanguage_eq_filter (pages : List (String × String)) :
    partitionByLanguage pages =
      (pages.filter (fun p => detectLanguage p.2 == "english"),
       pages.filter (fun p => detectLanguage p.2 == "sinhala"),
       pages.filter (fun p => detectLanguage p.2 == "mixed")) := by
  unfold partitionByLanguage
  rw [partitionByLanguage_go]
  simp

/-- C6: the short-context language classifier returns `empty` on
blank/whitespace-only input, `no_text` when the Sinhala plus ASCII-letter
count is zero, `sinhala` when the Sinhala share exceeds 0.7, `english` when
the English share exceeds 0.7, `mixed` when both shares exceed 0.1, and
`other` otherwise; a string of 8 Sinhala letters classifies as `sinhala`, a
50/50 split as `mixed`, and the empty string as `empty`. -/
theorem C6_language_classifier :
    (∀ text : String,
        detectLanguage text =
          if text.data.all pyIsSpace then "empty"
          else classifyCounts (sinhalaCount text) (asciiAlphaCount text))
    ∧ detectLanguage "කකකකකකකක" = "sinhala"
    ∧ detectLanguage "කග ab" = "mixed"
    ∧ detectLanguage "" = "empty" :=
  ⟨detectLanguage_characterization,
   by rw [detectLanguage_characterization]; decide,
   by rw [detectLanguage_characterization]; decide,
   by rw [detectLanguage_characterization]; decide⟩

/-- C7 counterexample: the translation-analysis page partition does not use
the secondary 0.1 / 0.5 classifier.  The page text "abc 12345" is placed in
the english bucket (the primary classifier says `english`), although the
secondary whole-page classifier says `mixed`. -/
theorem C7_counterexample :
    partitionByLanguage [("u", "abc 12345")] = ([("u", "abc 12345")], [], [])
    ∧ detectLanguagePage "abc 12345" = "mixed" := by
  have h : detectLanguage "abc 12345" = "english" := by
    rw [detectLanguage_characterization]; decide
  constructor
  · rw [partitionByLanguage_eq_filter]
    simp [List.filter_cons, h]
  · have hs : sinhalaCount "abc 12345" = 0 := by decide
    have he : asciiAlphaCount "abc 12345" = 3 := by decide
    have htot : ("abc 12345".data.filter (fun c => c ≠ ' ')).length = 8 := by decide
    simp only [detectLanguagePage, hs, he, htot]
    norm_num
    exact fun h => absurd h (by decide)

/-- C7 amended: the english/sinhala/mixed page buckets of the translation
analysis are filters by the primary short-context classifier
`detect_language`, not by the secondary variant; the secondary 0.1 / 0.5
variant (`DiscrepancyAnalyzer.detect_language`) is a distinct function that
disagrees with the primary one, e.g. on "abc 12345". -/
theorem C7_amended :
    (∀ pages, partitionByLanguage pages =
      (pages.filter (fun p => detectLanguage p.2 == "english"),
       pages.filter (fun p => detectLanguage p.2 == "sinhala"),
       pages.filter (fun p => detectLanguage p.2 == "mixed")))
    ∧ detectLanguage "abc 12345" = "english"
    ∧ detectLanguagePage "abc 12345" = "mixed" := by
  refine ⟨partitionByLanguage_eq_filter, ?_, ?_⟩
  · rw [detectLanguage_characterization]; decide
  · have hs : sinhalaCount "abc 12345" = 0 := by decide
    have he : asciiAlphaCount "abc 12345" = 3 := by decide
    have htot : ("abc 12345".data.filter (fun c => c ≠ ' ')).length = 8 := by decide
    simp only [detectLanguagePage, hs, he, htot]
    norm_num
    exact fun h => absurd h (by decide)

/-! ## Decimal rendering helpers (Python f-string formats used by the analyzer) -/

/-- Decimal digit character. -/
def digitChar (d : ℕ) : Char := Char.ofNat (48 + d)

/-- Digit list of a natural number, most significant first (fuel-driven so
that it evaluates by kernel reduction). -/
def natReprAux : ℕ → ℕ → List Char
  | 0, _ => []
  | fuel + 1, n => if n < 10 then [digitChar n] else natReprAux fuel (n / 10) ++ [digitChar (n % 10)]

/-- Decimal rendering of a natural number. -/
def natRepr (n : ℕ) : String := ⟨natReprAux (n + 1) n⟩

/-- Decimal rendering of an integer. -/
def intRepr (i : ℤ) : String := if i < 0 then "-" ++ natRepr i.natAbs else natRepr i.natAbs

/-- Python `f"{x:.0f}"`: nearest-integer rendering of a float. -/
def fmt0 (q : ℚ) : String := intRepr (round q)

/-- Python `f"{x:.1f}"`: one-decimal rendering of a (non-negative) float. -/
def fmt1 (q : ℚ) : String :=
  let n : ℤ := round (q * 10)
  intRepr (n / 10) ++ "." ++ natRepr (n % 10).natAbs

/-! ## Price facts and greedy clustering
(`ContentConsistencyAnalyzer.analyze_pricing_consistency`, lines 253-298) -/

/-- One extracted price occurrence of a category, as accumulated in
`price_groups[category]` (lines 245-251): url, context window, language tag
of the context, and the numeric price value. -/
structure PriceFact where
  url : String
  context : String
  language : String
  price : ℚ
deriving DecidableEq

instance : Inhabited PriceFact := ⟨⟨"", "", "", 0⟩⟩

/-- Representative value of a cluster: the price of its first-inserted
member (`existing_group[0]['price']`, line 265). -/
def clusterRep (c : List PriceFact) : ℚ := c.headI.price

/-- Insertion of one fact into the open cluster list (lines 260-273): scan
clusters in order, join the first whose representative is within 10%
relative distance, else open a new cluster at the end.  Division is ℚ-total
here; `insertFactE` models the `ZeroDivisionError` behaviour. -/
def insertFact (clusters : List (List PriceFact)) (f : PriceFact) : List (List PriceFact) :=
  match clusters with
  | [] => [[f]]
  | c :: rest =>
    if |f.price - clusterRep c| / clusterRep c < (1 : ℚ)/10 then (c ++ [f]) :: rest
    else c :: insertFact rest f

/-- Greedy clustering of a category's facts (`unique_prices`, lines 258-273). -/
def clusterPrices (facts : List PriceFact) : List (List PriceFact) :=
  facts.foldl insertFact []

/-- Insertion step with the `ZeroDivisionError` made explicit: Python
evaluates `abs(v - rep) / rep` before comparing, so a zero representative
raises before any tolerance decision. -/
def insertFactE (clusters : List (List PriceFact)) (f : PriceFact) :
    Except Unit (List (List PriceFact)) :=
  match clusters with
  | [] => .ok [[f]]
  | c :: rest =>
    if clusterRep c = 0 then .error ()
    else if |f.price - clusterRep c| / clusterRep c < (1 : ℚ)/10 then .ok ((c ++ [f]) :: rest)
    else
      match insertFactE rest f with
      | .ok rest' => .ok (c :: rest')
      | .error e => .error e

/-- Clustering with the `ZeroDivisionError` made explicit. -/
def clusterPricesE (facts : List PriceFact) : Except Unit (List (List PriceFact)) :=
  facts.foldlM insertFactE []

/-- The membership condition checked when a fact joins a cluster. -/
def clusterMatches (c : List PriceFact) (f : PriceFact) : Prop :=
  |f.price - clusterRep c| / clusterRep c < (1 : ℚ)/10

instance (c : List PriceFact) (f : PriceFact) : Decidable (clusterMatches c f) := by
  unfold clusterMatches; infer_instance

lemma insertFact_length (cs : List (List PriceFact)) (f : PriceFact) :
    (insertFact cs f).length ≤ cs.length + 1 := by
  induction cs with
  | nil => simp [insertFact]
  | cons c rest ih =>
    rw [insertFact]
    split
    · simp
    · simpa using Nat.succ_le_succ ih

lemma foldl_insertFact_length (facts : List PriceFact) (acc : List (List PriceFact)) :
    (facts.foldl insertFact acc).length ≤ acc.length + facts.length := by
  induction facts generalizing acc with
  | nil => simp
  | cons f rest ih =>
    calc (List.foldl insertFact (insertFact acc f) rest).length
        ≤ (insertFact acc f).length + rest.length := ih _
      _ ≤ acc.length + 1 + rest.length := by
          exact Nat.add_le_add_right (insertFact_length acc f) _
      _ = acc.length + (rest.length + 1) := by omega

lemma clusterPrices_length_le (facts : List PriceFact) :
    (clusterPrices facts).length ≤ facts.length := by
  simpa using foldl_insertFact_length facts []

/-- Facts of the clusters all satisfy any property the inserted facts have. -/
lemma insertFact_pred (P : PriceFact → Prop) (cs : List (List PriceFact)) (f : PriceFact)
    (hcs : ∀ c ∈ cs, ∀ x ∈ c, P x) (hf : P f) :
    ∀ c ∈ insertFact cs f, ∀ x ∈ c, P x := by
  induction cs with
  | nil =>
    intro c hc x hx
    simp [insertFact] at hc
    subst hc
    simp at hx
    subst hx
    exact hf
  | cons c₀ rest ih =>
    intro c hc x hx
    rw [insertFact] at hc
    split at hc
    · rcases List.mem_cons.mp hc with h | h
      · subst h
        rcases List.mem_append.mp hx with h' | h'
        · exact hcs c₀ (by simp) x h'
        · simp at h'
          subst h'
          exact hf
      · exact hcs c (List.mem_cons_of_mem _ h) x hx
    · rcases List.mem_cons.mp hc with h | h
      · subst h
        exact hcs c (by simp) x hx
      · exact ih (fun c' hc' => hcs c' (List.mem_cons_of_mem _ hc')) c h x hx

lemma clusterPrices_pred (P : PriceFact → Prop) (facts : List PriceFact)
    (hf : ∀ f ∈ facts, P f) :
    ∀ c ∈ clusterPrices facts, ∀ x ∈ c, P x := by
  suffices h : ∀ (l : List PriceFact) (acc : List (List PriceFact)),
      (∀ c ∈ acc, ∀ x ∈ c, P x) → (∀ f ∈ l, P f) →
      ∀ c ∈ l.foldl insertFact acc, ∀ x ∈ c, P x by
    exact h facts [] (by simp) hf
  intro l
  induction l with
  | nil => intro acc hacc _; simpa using hacc
  | cons f rest ih =>
    intro acc hacc hl
    exact ih (insertFact acc f)
      (insertFact_pred P acc f hacc (hl f (by simp)))
      (fun x hx => hl x (List.mem_cons_of_mem _ hx))

/-- Clusters are never empty. -/
lemma insertFact_ne_nil (cs : List (List PriceFact)) (f : PriceFact)
    (hcs : ∀ c ∈ cs, c ≠ []) : ∀ c ∈ insertFact cs f, c ≠ [] := by
  induction cs with
  | nil =>
    intro c hc
    simp [insertFact] at hc
    subst hc
    simp
  | cons c₀ rest ih =>
    intro c hc
    rw [insertFact] at hc
    split at hc
    · rcases List.mem_cons.mp hc with h | h
      · subst h
        simp
      · exact hcs c (List.mem_cons_of_mem _ h)
    · rcases List.mem_cons.mp hc with h | h
      · subst h
        exact hcs c (by simp)
      · exact ih (fun c' hc' => hcs c' (List.mem_cons_of_mem _ hc')) c h

lemma clusterPrices_ne_nil (facts : List PriceFact) :
    ∀ c ∈ clusterPrices facts, c ≠ [] := by
  suffices h : ∀ (l : List PriceFact) (acc : List (List PriceFact)),
      (∀ c ∈ acc, c ≠ []) → ∀ c ∈ l.foldl insertFact acc, c ≠ [] by
    exact h facts [] (by simp)
  intro l
  induction l with
  | nil => intro acc hacc; simpa using hacc
  | cons f rest ih =>
    intro acc hacc
    exact ih (insertFact acc f) (insertFact_ne_nil acc f hacc)

/-- Every non-representative member of a cluster was admitted by the
tolerance test against the cluster's (fixed) representative. -/
lemma insertFact_tail_tol (cs : List (List PriceFact)) (f : PriceFact)
    (hcs : ∀ c ∈ cs, c ≠ [] ∧ ∀ x ∈ c.tail, clusterMatches c x) :
    ∀ c ∈ insertFact cs f, c ≠ [] ∧ ∀ x ∈ c.tail, clusterMatches c x := by
  induction cs with
  | nil =>
    intro c hc
    simp [insertFact] at hc
    subst hc
    simp [clusterMatches]
  | cons c₀ rest ih =>
    intro c hc
    rw [insertFact] at hc
    split at hc
    case isTrue hjoin =>
      rcases List.mem_cons.mp hc with h | h
      · subst h
        obtain ⟨hne, htail⟩ := hcs c₀ (by simp)
        obtain ⟨a, t, rfl⟩ : ∃ a t, c₀ = a :: t := by
          cases c₀ with
          | nil => exact absurd rfl hne
          | cons a t => exact ⟨a, t, rfl⟩
        refine ⟨by simp, ?_⟩
        intro x hx
        simp only [List.cons_append, List.tail_cons] at hx
        rcases List.mem_append.mp hx with h' | h'
        · simpa [clusterMatches, clusterRep] using htail x (by simpa using h')
        · simp at h'
          subst h'
          simpa [clusterMatches, clusterRep] using hjoin
      · exact hcs c (List.mem_cons_of_mem _ h)
    case isFalse =>
      rcases List.mem_cons.mp hc with h | h
      · subst h
        exact hcs c (by simp)
      · exact ih (fun c' hc' => hcs c' (List.mem_cons_of_mem _ hc')) c h

/-- Cluster invariant of the greedy clustering: each cluster is non-empty
and every member after the first passed the 10% test against the first. -/
lemma clusterPrices_tail_tol (facts : List PriceFact) :
    ∀ c ∈ clusterPrices facts, c ≠ [] ∧ ∀ x ∈ c.tail, clusterMatches c x := by
  suffices h : ∀ (l : List PriceFact) (acc : List (List PriceFact)),
      (∀ c ∈ acc, c ≠ [] ∧ ∀ x ∈ c.tail, clusterMatches c x) →
      ∀ c ∈ l.foldl insertFact acc, c ≠ [] ∧ ∀ x ∈ c.tail, clusterMatches c x by
    exact h facts [] (by simp)
  intro l
  induction l with
  | nil => intro acc hacc; simpa using hacc
  | cons f rest ih =>
    intro acc hacc
    exact ih (insertFact acc f) (insertFact_tail_tol acc f hacc)

lemma headI_mem_of_ne_nil {α : Type} [Inhabited α] {l : List α} (h : l ≠ []) :
    l.headI ∈ l := by
  cases l with
  | nil => exact absurd rfl h
  | cons a t => simp

/-- When every representative in sight is non-zero, the error-aware
insertion step agrees with the ℚ-total one. -/
lemma insertFactE_ok (cs : List (List PriceFact)) (f : PriceFact)
    (hcs : ∀ c ∈ cs, clusterRep c ≠ 0) :
    insertFactE cs f = Except.ok (insertFact cs f) := by
  induction cs with
  | nil => rfl
  | cons c₀ rest ih =>
    rw [insertFactE, insertFact]
    rw [if_neg (hcs c₀ (by simp))]
    split
    · rfl
    · rw [ih (fun c hc => hcs c (List.mem_cons_of_mem _ hc))]

/-- Clustering never raises when every fact value is non-zero, and then the
two models agree. -/
lemma clusterPricesE_ok (facts : List PriceFact) (h : ∀ f ∈ facts, f.price ≠ 0) :
    clusterPricesE facts = Except.ok (clusterPrices facts) := by
  suffices haux : ∀ (l : List PriceFact) (acc : List (List PriceFact)),
      (∀ c ∈ acc, c ≠ [] ∧ ∀ x ∈ c, x.price ≠ 0) → (∀ f ∈ l, f.price ≠ 0) →
      l.foldlM insertFactE acc = Except.ok (l.foldl insertFact acc) by
    exact haux facts [] (by simp) h
  intro l
  induction l with
  | nil => intro acc _ _; rfl
  | cons f rest ih =>
    intro acc hacc hl
    have hrep : ∀ c ∈ acc, clusterRep c ≠ 0 := by
      intro c hc
      obtain ⟨hne, hval⟩ := hacc c hc
      exact hval c.headI (headI_mem_of_ne_nil hne)
    rw [List.foldlM_cons, insertFactE_ok acc f hrep]
    have hstep : ∀ c ∈ insertFact acc f, c ≠ [] ∧ ∀ x ∈ c, x.price ≠ 0 := by
      intro c hc
      refine ⟨insertFact_ne_nil acc f (fun c' hc' => (hacc c' hc').1) c hc, ?_⟩
      exact insertFact_pred (fun x => x.price ≠ 0) acc f
        (fun c' hc' => (hacc c' hc').2) (hl f (by simp)) c hc
    have := ih (insertFact acc f) hstep (fun x hx => hl x (List.mem_cons_of_mem _ hx))
    simpa using this

/-! ## Pricing discrepancy trigger (lines 275-298) -/

/-- Lexicographic order on `(representative, occurrence count)` pairs,
models Python's `price_ranges.sort()` on 2-tuples. -/
def pairLe (a b : ℚ × ℕ) : Prop := a.1 < b.1 ∨ (a.1 = b.1 ∧ a.2 ≤ b.2)

instance (a b : ℚ × ℕ) : Decidable (pairLe a b) := by
  unfold pairLe; infer_instance

/-- `price_ranges.sort()` (line 278): stable ascending sort of the
`(representative, cluster size)` pairs. -/
def sortPairs (l : List (ℚ × ℕ)) : List (ℚ × ℕ) := l.insertionSort pairLe

/-- The `(representative, cluster size)` pairs, sorted (lines 277-278). -/
def priceRanges (facts : List PriceFact) : List (ℚ × ℕ) :=
  sortPairs ((clusterPrices facts).map fun c => (clusterRep c, c.length))

/-- `min_price = price_ranges[0][0]` (line 280). -/
def minRep (facts : List PriceFact) : ℚ := (priceRanges facts).headI.1

/-- `max_price = price_ranges[-1][0]` (line 281). -/
def maxRep (facts : List PriceFact) : ℚ := ((priceRanges facts).getLast?.getD (0, 0)).1

/-- One reported occurrence of a pricing discrepancy (lines 290-296):
`url`/`price`/`context`/`language` of the cluster's first member plus the
cluster size.  The `price` field is the already formatted string
`f"Rs. {price:.0f}"`, as in the source. -/
structure PricingOccurrence where
  url : String
  price : String
  context : String
  language : String
  count : ℕ
deriving DecidableEq

/-- The record appended to `inconsistencies['pricing_discrepancies']`
(lines 285-298).  `priceRange` and `differencePct` carry the formatted
strings built by the source's f-strings. -/
structure PricingIssue where
  category : String
  priceRange : String
  differencePct : String
  occurrences : List PricingOccurrence
deriving DecidableEq

/-- Per-category pricing analysis (lines 254-298): cluster when the
category has more than one fact, then report one discrepancy exactly when
more than one cluster exists and the min/max representatives differ by more
than 20%. -/
def analyzePricingCategory (category : String) (facts : List PriceFact) : Option PricingIssue :=
  if 1 < facts.length then
    if 1 < (clusterPrices facts).length then
      if (1 : ℚ)/5 < (maxRep facts - minRep facts) / minRep facts then
        some { category := category
             , priceRange := "Rs. " ++ fmt0 (minRep facts) ++ " - Rs. " ++ fmt0 (maxRep facts)
             , differencePct := fmt1 ((maxRep facts - minRep facts) / minRep facts * 100) ++ "%"
             , occurrences := (clusterPrices facts).map fun g =>
                 { url := g.headI.url
                 , price := "Rs. " ++ fmt0 (clusterRep g)
                 , context := g.headI.context
                 , language := g.headI.language
                 , count := g.length } }
      else none
    else none
  else none

/-- Concrete price fact carrying only a value (empty url/context/language),
used for the spec's worked examples. -/
def pf (p : ℚ) : PriceFact := ⟨"", "", "", p⟩

/-- C1: for a category of extracted price facts, a pricing discrepancy is
emitted iff clustering yields more than one cluster and the min/max
representatives differ by more than 20%; the multiset
(1000 x3, 1500 x2) yields exactly one discrepancy with range
"Rs. 1000 - Rs. 1500", difference "50.0%", and occurrence counts 3 and 2;
and a single cluster never yields a discrepancy. -/
theorem C1_pricing_trigger :
    (∀ (category : String) (facts : List PriceFact), (∀ f ∈ facts, 0 < f.price) →
        ((analyzePricingCategory category facts).isSome ↔
          1 < (clusterPrices facts).length ∧
          (1 : ℚ)/5 < (maxRep facts - minRep facts) / minRep facts))
    ∧ analyzePricingCategory "package" [pf 1000, pf 1000, pf 1000, pf 1500, pf 1500] =
        some { category := "package"
             , priceRange := "Rs. 1000 - Rs. 1500"
             , differencePct := "50.0%"
             , occurrences := [⟨"", "Rs. 1000", "", "", 3⟩, ⟨"", "Rs. 1500", "", "", 2⟩] }
    ∧ (∀ (category : String) (facts : List PriceFact),
        (clusterPrices facts).length = 1 → analyzePricingCategory category facts = none) := by
  refine ⟨?_, ?_, ?_⟩
  · intro category facts _
    constructor
    · intro hs
      rw [analyzePricingCategory] at hs
      by_cases h1 : 1 < facts.length
      · rw [if_pos h1] at hs
        by_cases h2 : 1 < (clusterPrices facts).length
        · rw [if_pos h2] at hs
          by_cases h3 : (1 : ℚ)/5 < (maxRep facts - minRep facts) / minRep facts
          · exact ⟨h2, h3⟩
          · rw [if_neg h3] at hs; simp at hs
        · rw [if_neg h2] at hs; simp at hs
      · rw [if_neg h1] at hs; simp at hs
    · rintro ⟨h2, h3⟩
      have h1 : 1 < facts.length := lt_of_lt_of_le h2 (clusterPrices_length_le facts)
      rw [analyzePricingCategory, if_pos h1, if_pos h2, if_pos h3]
      simp
  · have hc : clusterPrices [pf 1000, pf 1000, pf 1000, pf 1500, pf 1500] =
        [[pf 1000, pf 1000, pf 1000], [pf 1500, pf 1500]] := by
      norm_num [clusterPrices, insertFact, clusterRep, pf]
    have hr : priceRanges [pf 1000, pf 1000, pf 1000, pf 1500, pf 1500] =
        [(1000, 3), (1500, 2)] := by
      rw [priceRanges, hc]
      norm_num [sortPairs, List.insertionSort, List.orderedInsert, pairLe, clusterRep, pf]
    have hmin : minRep [pf 1000, pf 1000, pf 1000, pf 1500, pf 1500] = 1000 := by
      rw [minRep, hr]; decide
    have hmax : maxRep [pf 1000, pf 1000, pf 1000, pf 1500, pf 1500] = 1500 := by
      rw [maxRep, hr]; decide
    have harg : (maxRep [pf 1000, pf 1000, pf 1000, pf 1500, pf 1500] -
          minRep [pf 1000, pf 1000, pf 1000, pf 1500, pf 1500]) /
          minRep [pf 1000, pf 1000, pf 1000, pf 1500, pf 1500] * 100 = 50 := by
      rw [hmin, hmax]; norm_num
    have hf0a : fmt0 (1000 : ℚ) = "1000" := by
      rw [fmt0, show round ((1000 : ℚ)) = 1000 by norm_num [round]]; decide
    have hf0b : fmt0 (1500 : ℚ) = "1500" := by
      rw [fmt0, show round ((1500 : ℚ)) = 1500 by norm_num [round]]; decide
    have hf1 : fmt1 (50 : ℚ) = "50.0" := by
      rw [fmt1]; norm_num [round]; decide
    rw [analyzePricingCategory, if_pos (by norm_num),
      if_pos (by rw [hc]; norm_num),
      if_pos (by rw [hmin, hmax]; norm_num),
      harg, hmin, hmax, hc, hf1]
    simp [clusterRep, pf, hf0a, hf0b]
  · intro category facts h1c
    rw [analyzePricingCategory]
    by_cases h1 : 1 < facts.length
    · rw [if_pos h1, if_neg (by rw [h1c]; omega)]
    · rw [if_neg h1]

/-- C1 witness: the general trigger characterization applied to the
concrete positive-price input [2000, 900]. -/
theorem C1_witness :
    (∀ f ∈ [pf 2000, pf 900], 0 < f.price) ∧
    ((analyzePricingCategory "unknown" [pf 2000, pf 900]).isSome ↔
      1 < (clusterPrices [pf 2000, pf 900]).length ∧
      (1 : ℚ)/5 < (maxRep [pf 2000, pf 900] - minRep [pf 2000, pf 900]) /
        minRep [pf 2000, pf 900]) :=
  ⟨by rintro f hf; simp at hf; rcases hf with rfl | rfl <;> norm_num [pf],
   C1_pricing_trigger.1 "unknown" [pf 2000, pf 900]
     (by rintro f hf; simp at hf; rcases hf with rfl | rfl <;> norm_num [pf])⟩

/-- C2: the greedy nearest-bucket policy: an incoming fact joins the first
cluster (in insertion order) whose representative it matches within 10%,
otherwise a new cluster opens at the end; the representative (first-inserted
member) never changes when a fact joins; and facts (1000, 1030, 1050) form
one cluster and yield no pricing discrepancy. -/
theorem C2_greedy_policy :
    (∀ (pre : List (List PriceFact)) (c : List PriceFact) (post : List (List PriceFact))
        (f : PriceFact), (∀ c' ∈ pre, ¬ clusterMatches c' f) → clusterMatches c f →
        insertFact (pre ++ c :: post) f = pre ++ (c ++ [f]) :: post)
    ∧ (∀ (cs : List (List PriceFact)) (f : PriceFact),
        (∀ c ∈ cs, ¬ clusterMatches c f) → insertFact cs f = cs ++ [[f]])
    ∧ (∀ (c : List PriceFact) (f : PriceFact), c ≠ [] → clusterRep (c ++ [f]) = clusterRep c)
    ∧ clusterPrices [pf 1000, pf 1030, pf 1050] = [[pf 1000, pf 1030, pf 1050]]
    ∧ analyzePricingCategory "unknown" [pf 1000, pf 1030, pf 1050] = none := by
  refine ⟨?_, ?_, ?_, ?_, ?_⟩
  · intro pre
    induction pre with
    | nil =>
      intro c post f _ hc
      simp only [List.nil_append]
      rw [insertFact,
        if_pos (show |f.price - clusterRep c| / clusterRep c < (1 : ℚ)/10 from hc)]
    | cons c₀ pre' ih =>
      intro c post f hpre hc
      simp only [List.cons_append]
      rw [insertFact,
        if_neg (show ¬(|f.price - clusterRep c₀| / clusterRep c₀ < (1 : ℚ)/10) from
          hpre c₀ (by simp))]
      exact congrArg _ (ih c post f (fun c' hc' => hpre c' (List.mem_cons_of_mem _ hc')) hc)
  · intro cs
    induction cs with
    | nil => intro f _; simp [insertFact]
    | cons c₀ rest ih =>
      intro f hcs
      rw [insertFact,
        if_neg (show ¬(|f.price - clusterRep c₀| / clusterRep c₀ < (1 : ℚ)/10) from
          hcs c₀ (by simp))]
      rw [ih f (fun c hc => hcs c (List.mem_cons_of_mem _ hc))]
      simp
  · intro c f hc
    cases c with
    | nil => exact absurd rfl hc
    | cons a t => simp [clusterRep]
  · norm_num [clusterPrices, insertFact, clusterRep, pf]
  · have hc : clusterPrices [pf 1000, pf 1030, pf 1050] = [[pf 1000, pf 1030, pf 1050]] := by
      norm_num [clusterPrices, insertFact, clusterRep, pf]
    rw [analyzePricingCategory, if_pos (by norm_num), if_neg (by rw [hc]; norm_num)]

/-- C2 witness: the first-matching-cluster rule applied to concrete
clusters: 1030 skips the non-matching representative 2000 and joins the
matching cluster whose representative is 1000. -/
theorem C2_witness :
    (∀ c' ∈ [[pf 2000]], ¬ clusterMatches c' (pf 1030)) ∧
    clusterMatches [pf 1000] (pf 1030) ∧
    insertFact [[pf 2000], [pf 1000]] (pf 1030) = [[pf 2000], [pf 1000, pf 1030]] := by
  have h1 : ∀ c' ∈ [[pf 2000]], ¬ clusterMatches c' (pf 1030) := by
    intro c' hc'
    simp at hc'
    subst hc'
    simp only [clusterMatches, clusterRep, pf]
    norm_num
  have h2 : clusterMatches [pf 1000] (pf 1030) := by
    simp only [clusterMatches, clusterRep, pf]
    norm_num
  exact ⟨h1, h2, by simpa using C2_greedy_policy.1 [[pf 2000]] [pf 1000] [] (pf 1030) h1 h2⟩

/-- C3 counterexample: 905 and 1095 land in the same cluster (both within
10% of the representative 1000), yet their pairwise relative distance
exceeds the 10% threshold whichever of the two values normalizes it. -/
theorem C3_counterexample :
    ∃ c ∈ clusterPrices [pf 1000, pf 905, pf 1095],
      pf 905 ∈ c ∧ pf 1095 ∈ c ∧
      (1 : ℚ)/10 < |(pf 905).price - (pf 1095).price| / (pf 1095).price ∧
      (1 : ℚ)/10 < |(pf 1095).price - (pf 905).price| / (pf 905).price := by
  have hc : clusterPrices [pf 1000, pf 905, pf 1095] = [[pf 1000, pf 905, pf 1095]] := by
    norm_num [clusterPrices, insertFact, clusterRep, pf]
  refine ⟨[pf 1000, pf 905, pf 1095], by rw [hc]; simp, by simp, by simp, ?_, ?_⟩
  · norm_num [pf]
  · norm_num [pf]

/-- C3 amended: every member of a cluster other than the representative
(the first-inserted fact) is within the 10% relative tolerance of the
representative; the pairwise distance between two non-representative
members may exceed the threshold. -/
theorem C3_amended (facts : List PriceFact) :
    ∀ c ∈ clusterPrices facts, ∀ f ∈ c.tail,
      |f.price - clusterRep c| / clusterRep c < (1 : ℚ)/10 := by
  intro c hc f hf
  exact (clusterPrices_tail_tol facts c hc).2 f hf

/-- C3 witness: the amended invariant applied to the concrete cluster built
from [1000, 905]: the non-representative member 905 is within 10% of the
representative 1000. -/
theorem C3_witness :
    |(pf 905).price - clusterRep [pf 1000, pf 905]| / clusterRep [pf 1000, pf 905]
      < (1 : ℚ)/10 := by
  have hc : clusterPrices [pf 1000, pf 905] = [[pf 1000, pf 905]] := by
    norm_num [clusterPrices, insertFact, clusterRep, pf]
  exact C3_amended [pf 1000, pf 905] [pf 1000, pf 905] (by rw [hc]; simp) (pf 905) (by simp)

/-- C4: evaluating the clustering code at a category holding a zero-valued
price fact followed by any other fact: the tolerance comparison divides by
the zero representative, i.e. Python raises `ZeroDivisionError` (modelled
as `Except.error`), instead of skipping the comparison. -/
theorem C4_zero_rep_divides :
    clusterPricesE [pf 0, pf 5] = Except.error () := by
  simp [clusterPricesE, List.foldlM, insertFactE, clusterRep, pf, Bind.bind, Except.bind]

/-! ## Page pairing (`ContentConsistencyAnalyzer.might_be_translations`, lines 469-489) -/

/-- Replace every occurrence of the substring "/en/" by "/", scanning left
to right as Python's `str.replace` does. -/
def replaceEn : List Char → List Char
  | '/' :: 'e' :: 'n' :: '/' :: rest => '/' :: replaceEn rest
  | c :: rest => c :: replaceEn rest
  | [] => []

/-- Replace every occurrence of the substring "/si/" by "/". -/
def replaceSi : List Char → List Char
  | '/' :: 's' :: 'i' :: '/' :: rest => '/' :: replaceSi rest
  | c :: rest => c :: replaceSi rest
  | [] => []

/-- `url.replace('/en/', '/').replace('/si/', '/')` (line 472). -/
def normalizeUrl (url : String) : String := ⟨replaceSi (replaceEn url.data)⟩

/-- `might_be_translations` (lines 469-489): URL structural equivalence, or
price-count similarity (counts differ by at most 1 and the FIRST page has a
price), or feature-set Jaccard overlap above 0.5.  A page's features enter
as the deduplicated set of its feature keywords. -/
def mightBeTranslations (url1 url2 : String) (prices1 prices2 : List ℚ)
    (features1 features2 : List String) : Bool :=
  if normalizeUrl url1 = normalizeUrl url2 then true
  else if |(prices1.length : ℤ) - (prices2.length : ℤ)| ≤ 1 ∧ 0 < prices1.length then true
  else
    let f1 := features1.toFinset
    let f2 := features2.toFinset
    if f1.Nonempty ∧ f2.Nonempty then
      if 0 < (f1 ∪ f2).card ∧ (1 : ℚ)/2 < ((f1 ∩ f2).card : ℚ) / ((f1 ∪ f2).card : ℚ)
      then true else false
    else false

/-- C8 counterexample: two pages with non-equivalent URLs and no features,
where the first page has one extracted price and the second has none, are
paired by the count-similarity rule, contradicting "both pages have at
least one extracted price". -/
theorem C8_counterexample :
    mightBeTranslations "http://a" "http://b" [100] [] [] [] = true
    ∧ normalizeUrl "http://a" ≠ normalizeUrl "http://b"
    ∧ ([] : List ℚ).length = 0 := by
  refine ⟨?_, by decide, rfl⟩
  rw [mightBeTranslations, if_neg (by decide)]
  rw [if_pos (by constructor <;> decide)]

/-- C8 amended: with no features in play and non-equivalent URLs, the
count-similarity rule pairs two pages exactly when the price counts differ
by at most 1 and the FIRST page has at least one extracted price; a first
page without prices is never paired by this rule, but a second page without
prices can be. -/
theorem C8_amended (url1 url2 : String) (prices1 prices2 : List ℚ)
    (hne : normalizeUrl url1 ≠ normalizeUrl url2) :
    mightBeTranslations url1 url2 prices1 prices2 [] [] = true ↔
      (|(prices1.length : ℤ) - (prices2.length : ℤ)| ≤ 1 ∧ 0 < prices1.length) := by
  rw [mightBeTranslations, if_neg hne]
  by_cases h : |(prices1.length : ℤ) - (prices2.length : ℤ)| ≤ 1 ∧ 0 < prices1.length
  · rw [if_pos h]
    simpa using h
  · rw [if_neg h]
    rw [if_neg (by simp)]
    simp [h]

/-- C8 witness: the amended rule applied to a concrete pair: one price on
the first page, none on the second. -/
theorem C8_witness :
    normalizeUrl "http://x/en/p" ≠ normalizeUrl "http://y"
    ∧ (mightBeTranslations "http://x/en/p" "http://y" [100] [] [] [] = true ↔
        (|((([100] : List ℚ).length : ℤ)) - ((([] : List ℚ).length : ℤ))| ≤ 1 ∧
          0 < ([100] : List ℚ).length)) :=
  ⟨by decide, C8_amended "http://x/en/p" "http://y" [100] [] (by decide)⟩

/-! ## Price list comparison (`price_lists_match`, lines 491-503) -/

/-- Ascending sort of a price list (`sorted(prices)`). -/
def sortQ (l : List ℚ) : List ℚ := l.insertionSort (· ≤ ·)

/-- `price_lists_match` (lines 491-503): equal length, and after sorting
both lists every aligned pair differs by at most `tolerance` relative to
the larger element. -/
def priceListsMatch (prices1 prices2 : List ℚ) (tolerance : ℚ) : Bool :=
  if prices1.length = prices2.length then
    ((sortQ prices1).zip (sortQ prices2)).all fun p =>
      decide (|p.1 - p.2| / max p.1 p.2 ≤ tolerance)
  else false

lemma zip_all_tol_symm (tol : ℚ) (as : List ℚ) : ∀ bs : List ℚ,
    ((as.zip bs).all fun p => decide (|p.1 - p.2| / max p.1 p.2 ≤ tol)) =
      ((bs.zip as).all fun p => decide (|p.1 - p.2| / max p.1 p.2 ≤ tol)) := by
  induction as with
  | nil => intro bs; cases bs <;> simp
  | cons x xs ih =>
    intro bs
    cases bs with
    | nil => simp
    | cons y ys =>
      simp only [List.zip_cons_cons, List.all_cons]
      have hhead : (decide (|x - y| / max x y ≤ tol)) = (decide (|y - x| / max y x ≤ tol)) := by
        apply decide_eq_decide.mpr
        rw [abs_sub_comm, max_comm]
      rw [hhead, ih ys]

/-- C10: `price_lists_match` is symmetric in its two price lists, for every
tolerance: both lists are sorted independently and each aligned pair is
measured against the larger of the two elements. -/
theorem C10_price_lists_match_symm (a b : List ℚ) (tol : ℚ) :
    priceListsMatch a b tol = priceListsMatch b a tol := by
  unfold priceListsMatch
  by_cases h : a.length = b.length
  · rw [if_pos h, if_pos h.symm, zip_all_tol_symm]
  · rw [if_neg h, if_neg (fun h' => h h'.symm)]

/-! ## Price numerals (`ContentConsistencyAnalyzer.extract_prices`, lines 62-91)

The regex capture group is `\d{1,3}(?:,\d{3})*(?:\.\d{2})?`; each match is
converted with `float(match.replace(',', ''))`. -/

/-- Numeric value of a decimal digit character. -/
def digitVal (c : Char) : ℕ := c.toNat - 48

/-- Value of a digit string read left to right in base 10. -/
def digitsToNat (l : List Char) : ℕ := l.foldl (fun a c => 10 * a + digitVal c) 0

/-- `match.replace(',', '')` (line 84). -/
def stripCommas (l : List Char) : List Char := l.filter (fun c => c ≠ ',')

/-- Split a character list on commas (the comma-separated digit groups of
the capture grammar). -/
def splitComma : List Char → List (List Char)
  | [] => [[]]
  | c :: rest =>
    if c = ',' then [] :: splitComma rest
    else
      match splitComma rest with
      | g :: gs => (c :: g) :: gs
      | [] => [[c]]

/-- The integer part of the capture grammar: a 1-3 digit first group
followed by 3-digit groups. -/
def isIntGroups : List (List Char) → Bool
  | [] => false
  | g :: gs => (decide (1 ≤ g.length ∧ g.length ≤ 3) && g.all Char.isDigit)
      && gs.all (fun h => decide (h.length = 3) && h.all Char.isDigit)

/-- The optional fractional part of the capture grammar: nothing, or a dot
followed by exactly two digits. -/
def isFracPart : List Char → Bool
  | [] => true
  | '.' :: f => decide (f.length = 2) && f.all Char.isDigit
  | _ => false

/-- Recognizer of the capture grammar
`\d{1,3}(?:,\d{3})*(?:\.\d{2})?` over a whole string. -/
def isPriceNumeral (l : List Char) : Bool :=
  isIntGroups (splitComma (l.takeWhile (fun c => c ≠ '.'))) &&
  isFracPart (l.dropWhile (fun c => c ≠ '.'))

/-- Python's `float(...)` on a separator-free decimal string
`digits[.digits]` (the form produced by line 84), as an exact rational. -/
def pyFloatOfMatch (l : List Char) : ℚ :=
  let ip := l.takeWhile (fun c => c ≠ '.')
  let frac := (l.dropWhile (fun c => c ≠ '.')).drop 1
  (digitsToNat ip : ℚ) + (digitsToNat frac : ℚ) / 10 ^ frac.length

/-- The mathematical value of a thousands-separated numeral: the
comma-separated groups read in base 1000, plus the two-decimal fraction.
This is the specification-side "correct float value" of the numeral. -/
def numeralValue (l : List Char) : ℚ :=
  let ip := l.takeWhile (fun c => c ≠ '.')
  let frac := (l.dropWhile (fun c => c ≠ '.')).drop 1
  (((splitComma ip).foldl (fun a g => 1000 * a + digitsToNat g) 0 : ℕ) : ℚ) +
    (digitsToNat frac : ℚ) / 10 ^ frac.length

lemma splitComma_ne_nil (l : List Char) : splitComma l ≠ [] := by
  cases l with
  | nil => simp [splitComma]
  | cons c rest =>
    rw [splitComma]
    split
    · simp
    · cases h : splitComma rest with
      | nil => simp
      | cons g gs => simp

lemma stripCommas_cons (c : Char) (t : List Char) :
    stripCommas (c :: t) = if c = ',' then stripCommas t else c :: stripCommas t := by
  by_cases hc : c = ','
  · simp [stripCommas, List.filter_cons, hc]
  · simp [stripCommas, List.filter_cons, hc]

lemma splitComma_flatten (l : List Char) :
    (splitComma l).flatten = stripCommas l := by
  induction l with
  | nil => simp [splitComma, stripCommas]
  | cons c rest ih =>
    rw [splitComma, stripCommas_cons]
    by_cases hc : c = ','
    · rw [if_pos hc, if_pos hc]
      simpa using ih
    · rw [if_neg hc, if_neg hc]
      cases h : splitComma rest with
      | nil => exact absurd h (splitComma_ne_nil rest)
      | cons g gs =>
        rw [h] at ih
        simp only [List.flatten_cons, List.cons_append] at ih ⊢
        rw [← ih]

lemma digits_shift (b : List Char) : ∀ s : ℕ,
    b.foldl (fun a c => 10 * a + digitVal c) s = s * 10 ^ b.length + digitsToNat b := by
  induction b with
  | nil => intro s; simp [digitsToNat]
  | cons c b' ih =>
    intro s
    have hc : digitsToNat (c :: b') = digitVal c * 10 ^ b'.length + digitsToNat b' := by
      rw [digitsToNat]
      simp only [List.foldl_cons]
      rw [ih (10 * 0 + digitVal c)]
      ring_nf
    simp only [List.foldl_cons]
    rw [ih (10 * s + digitVal c), hc]
    simp [List.length_cons]
    ring

lemma digits_append (a b : List Char) :
    digitsToNat (a ++ b) = digitsToNat a * 10 ^ b.length + digitsToNat b := by
  rw [digitsToNat, List.foldl_append]
  exact digits_shift b (a.foldl (fun a c => 10 * a + digitVal c) 0)

lemma digits_join_groups (gs : List (List Char)) : ∀ pre : List Char,
    (∀ g ∈ gs, g.length = 3) →
    digitsToNat (pre ++ gs.flatten) =
      gs.foldl (fun a g => 1000 * a + digitsToNat g) (digitsToNat pre) := by
  induction gs with
  | nil => intro pre _; simp
  | cons g gs' ih =>
    intro pre hlen
    have h3 : g.length = 3 := hlen g (by simp)
    simp only [List.flatten_cons, List.foldl_cons]
    rw [← List.append_assoc]
    rw [ih (pre ++ g) (fun g' hg' => hlen g' (List.mem_cons_of_mem _ hg'))]
    congr 1
    rw [digits_append, h3]
    ring

lemma splitComma_digits (ip : List Char) (h : isIntGroups (splitComma ip) = true) :
    digitsToNat ((splitComma ip).flatten) =
      (splitComma ip).foldl (fun a g => 1000 * a + digitsToNat g) 0 := by
  cases hs : splitComma ip with
  | nil => exact absurd hs (splitComma_ne_nil ip)
  | cons g0 gs =>
    rw [hs] at h
    rw [isIntGroups] at h
    simp only [Bool.and_eq_true, List.all_eq_true, decide_eq_true_eq] at h
    obtain ⟨_, hgs⟩ := h
    simp only [List.flatten_cons, List.foldl_cons]
    have h0 : (1000 : ℕ) * 0 + digitsToNat g0 = digitsToNat g0 := by ring
    rw [h0]
    exact digits_join_groups gs g0 (fun g hg => ((hgs g hg).1))

lemma dropWhile_head_false (p : Char → Bool) : ∀ l : List Char, ∀ c cs,
    l.dropWhile p = c :: cs → p c = false := by
  intro l
  induction l with
  | nil => intro c cs h; simp at h
  | cons a t ih =>
    intro c cs h
    rw [List.dropWhile_cons] at h
    split at h
    · exact ih c cs h
    · injection h with h1 _
      subst h1
      simpa using ‹¬ p a = true›

lemma no_dot_split (A : List Char) (hA : ∀ c ∈ A, c ≠ '.') :
    A.takeWhile (fun c => c ≠ '.') = A ∧ A.dropWhile (fun c => c ≠ '.') = [] := by
  induction A with
  | nil => simp
  | cons a t ih =>
    have ha : (fun c : Char => decide (c ≠ '.')) a = true := by
      simpa using hA a (by simp)
    obtain ⟨h1, h2⟩ := ih (fun c hc => hA c (List.mem_cons_of_mem _ hc))
    rw [@List.takeWhile_cons_of_pos Char (fun c => decide (c ≠ '.')) a t ha,
      @List.dropWhile_cons_of_pos Char (fun c => decide (c ≠ '.')) a t ha, h1, h2]
    exact ⟨rfl, rfl⟩

lemma dot_split (A B : List Char) (hA : ∀ c ∈ A, c ≠ '.') :
    (A ++ '.' :: B).takeWhile (fun c => c ≠ '.') = A ∧
    (A ++ '.' :: B).dropWhile (fun c => c ≠ '.') = '.' :: B := by
  induction A with
  | nil => simp
  | cons a t ih =>
    have ha : (fun c : Char => decide (c ≠ '.')) a = true := by
      simpa using hA a (by simp)
    obtain ⟨h1, h2⟩ := ih (fun c hc => hA c (List.mem_cons_of_mem _ hc))
    rw [List.cons_append,
      @List.takeWhile_cons_of_pos Char (fun c => decide (c ≠ '.')) a (t ++ '.' :: B) ha,
      @List.dropWhile_cons_of_pos Char (fun c => decide (c ≠ '.')) a (t ++ '.' :: B) ha, h1, h2]
    exact ⟨rfl, rfl⟩

lemma digit_ne_comma (c : Char) (h : c.isDigit = true) : c ≠ ',' := by
  intro hc
  subst hc
  exact absurd h (by decide)

/-- Stripping the thousands separators from a capture-grammar numeral and
reading the result as a plain decimal yields the base-1000 value of the
comma-separated groups (plus the two-decimal fraction). -/
lemma pyFloat_strip_eq_value (l : List Char) (h : isPriceNumeral l = true) :
    pyFloatOfMatch (stripCommas l) = numeralValue l := by
  rw [isPriceNumeral, Bool.and_eq_true] at h
  obtain ⟨h1, h2⟩ := h
  have hl : l.takeWhile (fun c => c ≠ '.') ++ l.dropWhile (fun c => c ≠ '.') = l :=
    List.takeWhile_append_dropWhile _ l
  have hip_no_dot : ∀ c ∈ l.takeWhile (fun c => c ≠ '.'), c ≠ '.' := by
    intro c hc
    simpa using List.mem_takeWhile_imp hc
  have hstrip_no_dot : ∀ c ∈ stripCommas (l.takeWhile (fun c => c ≠ '.')), c ≠ '.' := by
    intro c hc
    exact hip_no_dot c (List.mem_of_mem_filter hc)
  have hipval : (digitsToNat (stripCommas (l.takeWhile (fun c => c ≠ '.'))) : ℚ) =
      (((splitComma (l.takeWhile (fun c => c ≠ '.'))).foldl
          (fun a g => 1000 * a + digitsToNat g) 0 : ℕ) : ℚ) := by
    rw [← splitComma_flatten, splitComma_digits _ h1]
  cases hr : l.dropWhile (fun c => c ≠ '.') with
  | nil =>
    have hsl : stripCommas l = stripCommas (l.takeWhile (fun c => c ≠ '.')) := by
      conv_lhs => rw [← hl, hr, List.append_nil]
    obtain ⟨ht, hd⟩ := no_dot_split _ hstrip_no_dot
    simp only [pyFloatOfMatch, numeralValue, hsl, ht, hd, hr]
    simp only [List.drop_nil, List.length_nil]
    rw [show digitsToNat ([] : List Char) = 0 from rfl, hipval]
  | cons r0 rf =>
    have hr0 : r0 = '.' := by
      have := dropWhile_head_false _ l r0 rf hr
      simpa using this
    subst hr0
    rw [hr, isFracPart] at h2
    simp only [Bool.and_eq_true, List.all_eq_true, decide_eq_true_eq] at h2
    obtain ⟨_, hdig⟩ := h2
    have hfrac_nc : stripCommas ('.' :: rf) = '.' :: rf := by
      rw [stripCommas, List.filter_eq_self]
      intro a ha
      rcases List.mem_cons.mp ha with h | h
      · subst h; decide
      · simpa using digit_ne_comma a (hdig a h)
    have hsl : stripCommas l = stripCommas (l.takeWhile (fun c => c ≠ '.')) ++ '.' :: rf := by
      conv_lhs => rw [← hl, hr]
      rw [stripCommas, List.filter_append]
      rw [show List.filter (fun c => decide (c ≠ ','))
            (l.takeWhile (fun c => c ≠ '.')) =
          stripCommas (l.takeWhile (fun c => c ≠ '.')) from rfl]
      rw [show List.filter (fun c => decide (c ≠ ',')) ('.' :: rf) =
          stripCommas ('.' :: rf) from rfl]
      rw [hfrac_nc]
    obtain ⟨ht, hd⟩ := dot_split (stripCommas (l.takeWhile (fun c => c ≠ '.'))) rf hstrip_no_dot
    simp only [pyFloatOfMatch, numeralValue, hsl, ht, hd, hr]
    simp only [List.drop_succ_cons, List.drop_zero]
    rw [hipval]

/-- Full-string match against the pattern `Rs\.?\s*(numeral)` (line 69,
case-insensitive on the marker): marker "Rs", optional dot, optional
whitespace, then a capture-grammar numeral. -/
def matchRs (s : String) : Option (List Char) :=
  match s.data with
  | c1 :: c2 :: rest =>
    if c1.toLower = 'r' ∧ c2.toLower = 's' then
      let rest1 := match rest with
        | '.' :: r => r
        | r => r
      let rest2 := rest1.dropWhile pyIsSpace
      if isPriceNumeral rest2 then some rest2 else none
    else none
  | _ => none

/-- Price recovered from a full-string `Rs.` match, as the source does:
`float(match.replace(',', ''))` (line 84). -/
def extractRs (s : String) : Option ℚ :=
  (matchRs s).map (fun m => pyFloatOfMatch (stripCommas m))

/-- Full-string match against the slash-dash pattern of line 73: a
capture-grammar numeral, optional whitespace, then the two-character
slash-dash suffix. -/
def matchSlashDash (s : String) : Option (List Char) :=
  match s.data.reverse with
  | '-' :: '/' :: restR =>
    let core := (restR.dropWhile pyIsSpace).reverse
    if isPriceNumeral core then some core else none
  | _ => none

/-- Price recovered from a full-string slash-dash match. -/
def extractSlashDash (s : String) : Option ℚ :=
  (matchSlashDash s).map (fun m => pyFloatOfMatch (stripCommas m))

/-- C9: for every capture-grammar numeral, extraction's
`float(match.replace(',', ''))` recovers the numeral's correct value (the
comma groups read as thousands); in particular "Rs. 2,500.00" yields 2500.0
and the slash-dash-marked "1,999" yields 1999.0. -/
theorem C9_extraction :
    (∀ l : List Char, isPriceNumeral l = true →
        pyFloatOfMatch (stripCommas l) = numeralValue l)
    ∧ extractRs "Rs. 2,500.00" = some 2500
    ∧ extractSlashDash "1,999/-" = some 1999 := by
  refine ⟨pyFloat_strip_eq_value, ?_, ?_⟩
  · have hm : matchRs "Rs. 2,500.00" = some "2,500.00".data := by decide
    have hs : stripCommas "2,500.00".data = "2500.00".data := by decide
    rw [extractRs, hm, Option.map_some', hs]
    have ht : "2500.00".data.takeWhile (fun c => c ≠ '.') = "2500".data := by decide
    have hd : "2500.00".data.dropWhile (fun c => c ≠ '.') = '.' :: "00".data := by decide
    simp only [pyFloatOfMatch, ht, hd, List.drop_succ_cons, List.drop_zero]
    rw [show digitsToNat "2500".data = 2500 from by decide,
      show digitsToNat "00".data = 0 from by decide,
      show ("00".data).length = 2 from by decide]
    norm_num
  · have hm : matchSlashDash "1,999/-" = some "1,999".data := by decide
    have hs : stripCommas "1,999".data = "1999".data := by decide
    rw [extractSlashDash, hm, Option.map_some', hs]
    have ht : "1999".data.takeWhile (fun c => c ≠ '.') = "1999".data := by decide
    have hd : "1999".data.dropWhile (fun c => c ≠ '.') = [] := by decide
    simp only [pyFloatOfMatch, ht, hd, List.drop_nil]
    rw [show digitsToNat "1999".data = 1999 from by decide,
      show digitsToNat ([] : List Char) = 0 from by decide,
      show ([] : List Char).length = 0 from by decide]
    norm_num

/-- C9 witness: the general recovery statement applied to the concrete
capture "2,500.00". -/
theorem C9_witness :
    isPriceNumeral "2,500.00".data = true ∧
    pyFloatOfMatch (stripCommas "2,500.00".data) = numeralValue "2,500.00".data :=
  ⟨by decide, C9_extraction.1 "2,500.00".data (by decide)⟩

/-! ## Report generation (`generate_report`, lines 593-732)

The accumulated `self.inconsistencies` dict becomes the `Inconsistencies`
record; `datetime.now()` (line 601) and `self.json_file_path` (line 602)
become explicit `now`/`path` parameters.  Python string slices and case
mappings are modelled code-point-wise. -/

/-- One entry of `inconsistencies['translation_mismatches']`
(lines 434-443, 459-467, 518-524). -/
inductive TranslationIssue where
  | priceMismatch (url1 url2 lang1 lang2 : String) (prices1 prices2 : List ℚ)
  | featureMismatch (url1 url2 lang1 lang2 : String) (missing1 missing2 : List String)
  | internalMismatch (url : String) (engPrices sinPrices : List ℚ) (issue : String)
deriving DecidableEq

/-- A `data_limits` entry (lines 144-154): the `unlimited` sentinel, a
numeric cap, or the raw matched string. -/
inductive DataLimit where
  | unlimited
  | num (q : ℚ)
  | str (s : String)
deriving DecidableEq

/-- One package of a feature group (lines 334-339). -/
structure PackageInfo where
  url : String
  speeds : List ℚ
  dataLimits : List DataLimit
  language : String
deriving DecidableEq

/-- One entry of `inconsistencies['package_details_discrepancies']`
(lines 350-355, 367-372). -/
inductive PackageIssue where
  | speedInconsistency (featureGroup : String) (speedVariations : List ℚ)
      (packages : List PackageInfo)
  | dataLimitInconsistency (featureGroup : String) (dataVariations : List String)
      (packages : List PackageInfo)
deriving DecidableEq

/-- One collected phone/email occurrence (lines 548-559). -/
structure ContactDetail where
  url : String
  value : String
  context : String
deriving DecidableEq

/-- One entry of `inconsistencies['contact_info_discrepancies']`
(lines 565-580). -/
inductive ContactIssue where
  | phones (count : ℕ) (numbers : List String) (details : List ContactDetail)
  | emails (count : ℕ) (addresses : List String) (details : List ContactDetail)
deriving DecidableEq

/-- The analyzer's `self.inconsistencies` accumulator (lines 11-17; the
`service_feature_discrepancies` list is never filled nor reported). -/
structure Inconsistencies where
  pricing : List PricingIssue
  translation : List TranslationIssue
  packageDetails : List PackageIssue
  contact : List ContactIssue
deriving DecidableEq

/-- Python `str.upper()` for the ASCII strings used in the report. -/
def pyUpper (s : String) : String := ⟨s.data.map Char.toUpper⟩

def pyTitleAux : List Char → Bool → List Char
  | [], _ => []
  | c :: rest, prevAlpha =>
    (if isAsciiAlpha c then (if prevAlpha then c.toLower else c.toUpper) else c) ::
      pyTitleAux rest (isAsciiAlpha c)

/-- Python `str.title()` for the ASCII strings used in the report. -/
def pyTitle (s : String) : String := ⟨pyTitleAux s.data false⟩

/-- Python slice `s[:n]`, by code points. -/
def pyTake (n : ℕ) (s : String) : String := ⟨s.data.take n⟩

/-- Python `repr` of a float, exact for the at-most-two-decimal values the
extractors produce. -/
def floatRepr (q : ℚ) : String :=
  if q.den = 1 then intRepr q.num ++ ".0"
  else if 100 % q.den = 0 then
    let cents : ℤ := q.num * ((100 / q.den : ℕ) : ℤ)
    let ip := cents / 100
    let fr := (cents % 100).natAbs
    if fr % 10 = 0 then intRepr ip ++ "." ++ natRepr (fr / 10)
    else if fr < 10 then intRepr ip ++ ".0" ++ natRepr fr
    else intRepr ip ++ "." ++ natRepr fr
  else intRepr q.num ++ "/" ++ natRepr q.den

/-- Python `f"{list_of_floats}"`. -/
def listReprQ (l : List ℚ) : String :=
  "[" ++ String.intercalate ", " (l.map floatRepr) ++ "]"

/-- Python `f"{list_of_strings}"`. -/
def listReprStr (l : List String) : String :=
  "[" ++ String.intercalate ", " (l.map (fun s => "'" ++ s ++ "'")) ++ "]"

def dataLimitRepr : DataLimit → String
  | .unlimited => "'unlimited'"
  | .num q => floatRepr q
  | .str s => "'" ++ s ++ "'"

def listReprDL (l : List DataLimit) : String :=
  "[" ++ String.intercalate ", " (l.map dataLimitRepr) ++ "]"

/-- The 50-character separator rule (`"=" * 50`). -/
def eq50 : String := String.mk (List.replicate 50 '=')

/-- Report block for one pricing occurrence (lines 617-621). -/
def pricingOccLines (occ : PricingOccurrence) : List String :=
  ["   • " ++ occ.url,
   "     Price: " ++ occ.price ++ " (" ++ occ.language ++ " content)",
   "     Context: " ++ pyTake 100 occ.context ++ "...",
   ""]

/-- Report block for one pricing issue (lines 611-621). -/
def pricingIssueLines (i : ℕ) (issue : PricingIssue) : List String :=
  ["\n" ++ natRepr i ++ ". " ++ pyUpper issue.category ++ " PRICING INCONSISTENCY",
   "   Price Range: " ++ issue.priceRange,
   "   Difference: " ++ issue.differencePct,
   "   Found in:"] ++ issue.occurrences.flatMap pricingOccLines

/-- Pricing section of the report (lines 607-624). -/
def pricingSection (issues : List PricingIssue) : List String :=
  if issues = [] then ["✅ NO PRICING DISCREPANCIES FOUND", ""]
  else ["🔍 PRICING DISCREPANCIES FOUND", eq50] ++
    (List.enumFrom 1 issues).flatMap (fun p => pricingIssueLines p.1 p.2)

def tmTypeStr : TranslationIssue → String
  | .priceMismatch _ _ _ _ _ _ => "price_mismatch_between_languages"
  | .featureMismatch _ _ _ _ _ _ => "feature_mismatch_between_languages"
  | .internalMismatch _ _ _ _ => "internal_language_price_mismatch"

/-- Report body of one translation mismatch (lines 633-651). -/
def tmBody : TranslationIssue → List String
  | .priceMismatch u1 u2 l1 l2 p1 p2 =>
      ["   " ++ pyTitle l1 ++ " page: " ++ u1,
       "   " ++ pyTitle l1 ++ " prices: " ++ listReprQ p1,
       "   " ++ pyTitle l2 ++ " page: " ++ u2,
       "   " ++ pyTitle l2 ++ " prices: " ++ listReprQ p2]
  | .featureMismatch u1 u2 l1 l2 m1 m2 =>
      ["   " ++ pyTitle l1 ++ " page: " ++ u1,
       "   " ++ pyTitle l2 ++ " page: " ++ u2] ++
      (if m1 ≠ [] then ["   Missing in " ++ pyTitle l1 ++ ": " ++ listReprStr m1] else []) ++
      (if m2 ≠ [] then ["   Missing in " ++ pyTitle l2 ++ ": " ++ listReprStr m2] else [])
  | .internalMismatch u ep sp issue =>
      ["   Page: " ++ u,
       "   English prices: " ++ listReprQ ep,
       "   Sinhala prices: " ++ listReprQ sp,
       "   Issue: " ++ issue]

/-- Report block for one translation mismatch (lines 630-653). -/
def translationIssueLines (i : ℕ) (t : TranslationIssue) : List String :=
  ("\n" ++ natRepr i ++ ". " ++ pyUpper (tmTypeStr t)) :: (tmBody t ++ [""])

/-- Translation section of the report (lines 626-656). -/
def translationSection (issues : List TranslationIssue) : List String :=
  if issues = [] then ["✅ NO TRANSLATION MISMATCHES FOUND", ""]
  else ["🔍 ENGLISH-SINHALA TRANSLATION MISMATCHES", eq50] ++
    (List.enumFrom 1 issues).flatMap (fun p => translationIssueLines p.1 p.2)

def pkgTypeStr : PackageIssue → String
  | .speedInconsistency _ _ _ => "speed_inconsistency"
  | .dataLimitInconsistency _ _ _ => "data_limit_inconsistency"

/-- Report line for one package of an issue (lines 672-677). -/
def pkgLine (p : PackageInfo) : String :=
  "   • " ++ p.url ++ " - speeds: " ++ listReprQ p.speeds ++
    ", data_limits: " ++ listReprDL p.dataLimits ++ ", language: " ++ p.language

/-- Report block for one package issue (lines 662-679). -/
def packageIssueLines (i : ℕ) (iss : PackageIssue) : List String :=
  ["\n" ++ natRepr i ++ ". " ++ pyUpper (pkgTypeStr iss),
   "   Feature Group: " ++
     (match iss with
      | .speedInconsistency fg _ _ => fg
      | .dataLimitInconsistency fg _ _ => fg)] ++
  (match iss with
   | .speedInconsistency _ sv _ => ["   Speed variations: " ++ listReprQ sv]
   | .dataLimitInconsistency _ dv _ => ["   Data limit variations: " ++ listReprStr dv]) ++
  ["   Found in packages:"] ++
  (match iss with
   | .speedInconsistency _ _ pkgs => pkgs
   | .dataLimitInconsistency _ _ pkgs => pkgs).map pkgLine ++
  [""]

/-- Package section of the report (lines 658-681). -/
def packageSection (issues : List PackageIssue) : List String :=
  if issues = [] then ["✅ NO PACKAGE DETAILS DISCREPANCIES FOUND", ""]
  else ["🔍 PACKAGE DETAILS DISCREPANCIES", eq50] ++
    (List.enumFrom 1 issues).flatMap (fun p => packageIssueLines p.1 p.2)

def ctTypeStr : ContactIssue → String
  | .phones _ _ _ => "multiple_phone_numbers"
  | .emails _ _ _ => "multiple_email_addresses"

/-- Report line for one contact occurrence (lines 696-697). -/
def contactDetailLine (d : ContactDetail) : String :=
  "   • " ++ d.url ++ " - " ++ d.value ++ " (context: " ++ pyTake 80 d.context ++ ")"

/-- Report block for one contact issue (lines 688-698). -/
def contactIssueLines (i : ℕ) (iss : ContactIssue) : List String :=
  ["\n" ++ natRepr i ++ ". " ++ pyUpper (ctTypeStr iss),
   "   Count: " ++
     (match iss with
      | .phones n _ _ => natRepr n
      | .emails n _ _ => natRepr n)] ++
  (match iss with
   | .phones _ numbers _ => ["   Numbers: " ++ listReprStr numbers]
   | .emails _ addrs _ => ["   Emails: " ++ listReprStr addrs]) ++
  ["   Details:"] ++
  (match iss with
   | .phones _ _ ds => ds
   | .emails _ _ ds => ds).map contactDetailLine ++
  [""]

/-- Contact section of the report (lines 684-701). -/
def contactSection (issues : List ContactIssue) : List String :=
  if issues = [] then ["✅ NO CONTACT INFORMATION DISCREPANCIES FOUND", ""]
  else ["🔍 CONTACT INFORMATION DISCREPANCIES", eq50] ++
    (List.enumFrom 1 issues).flatMap (fun p => contactIssueLines p.1 p.2)

/-- `generate_summary_stats`'s total (lines 749-755). -/
def totalInconsistencies (inc : Inconsistencies) : ℕ :=
  inc.pricing.length + inc.translation.length + inc.packageDetails.length + inc.contact.length

/-- Summary section of the report (lines 704-728). -/
def summarySection (inc : Inconsistencies) : List String :=
  ["📋 SUMMARY & RECOMMENDATIONS", eq50] ++
  (if totalInconsistencies inc = 0 then
    ["🎉 EXCELLENT! No content inconsistencies found.",
     "Your website content is consistent across all pages and languages."]
   else
    ["⚠️  FOUND " ++ natRepr (totalInconsistencies inc) ++ " CONTENT INCONSISTENCIES",
     "",
     "PRIORITY ACTIONS NEEDED:"] ++
    (if inc.pricing.length ≠ 0 then
      [" - Fix pricing inconsistencies (" ++ natRepr inc.pricing.length ++ " issues)"] else []) ++
    (if inc.translation.length ≠ 0 then
      [" - Review translation mismatches (" ++ natRepr inc.translation.length ++ " issues)"] else []) ++
    (if inc.packageDetails.length ≠ 0 then
      [" - Harmonize package details (" ++ natRepr inc.packageDetails.length ++ " issues)"] else []) ++
    (if inc.contact.length ≠ 0 then
      [" - Consolidate contact information (" ++ natRepr inc.contact.length ++ " issues)"] else []))

/-- The report's line list (`report` in `generate_report`, lines 596-729):
the header carries the generation timestamp (`datetime.now()`, line 601) at
index 3, then the source path, the page and inconsistency counts, and the
four sections followed by the summary. -/
def reportLines (path now : String) (totalPages : ℕ) (inc : Inconsistencies) : List String :=
  String.mk (List.replicate 80 '=') ::
  "SLT WEBSITE CONTENT CONSISTENCY ANALYSIS" ::
  String.mk (List.replicate 80 '=') ::
  ("Generated on: " ++ now) ::
  ("Source file: " ++ path) ::
  ("Pages analyzed: " ++ natRepr totalPages) ::
  ("Total inconsistencies found: " ++ natRepr (totalInconsistencies inc)) ::
  "" ::
  (pricingSection inc.pricing ++ translationSection inc.translation ++
   packageSection inc.packageDetails ++ contactSection inc.contact ++ summarySection inc)

/-- `"\n".join(report)` (line 731). -/
def generateReport (path now : String) (totalPages : ℕ) (inc : Inconsistencies) : String :=
  String.intercalate "\n" (reportLines path now totalPages inc)

/-- Result of the analysis phases on an empty page collection. -/
def emptyInconsistencies : Inconsistencies := ⟨[], [], [], []⟩

set_option maxRecDepth 20000 in
/-- C5 counterexample: two runs over the same (empty) page collection with
the same analysis results but different clock readings produce different
report bytes, because line 3 embeds `datetime.now()`; the report is not a
function of the input pages alone. -/
theorem C5_counterexample :
    generateReport "Scrapped.json" "2025-01-01 00:00:00" 0 emptyInconsistencies ≠
    generateReport "Scrapped.json" "2025-01-01 00:00:01" 0 emptyInconsistencies := by
  decide

/-- C5 amended: apart from the "Generated on" line (index 3), the report is
a deterministic function of the source path, the page count and the
accumulated inconsistencies: two runs over identical analysis results agree
on every other line, whatever the two clock readings are. -/
theorem C5_amended (path : String) (totalPages : ℕ) (inc : Inconsistencies)
    (now1 now2 : String) :
    (reportLines path now1 totalPages inc).eraseIdx 3 =
    (reportLines path now2 totalPages inc).eraseIdx 3 := rfl

end SLT
